import Mathlib

/-!
Verification of the in-process search/indexing subsystem and the annotation
API of this repository, via a shallow embedding of the JavaScript source
(`ConfigStore.js`, `AnnotationAPI`, `InMemorySearchProvider`).

JavaScript objects used as dictionaries are modelled as association lists
(`List (String × α)`), preserving insertion order (string-keyed JS objects
enumerate in insertion order, and assigning to an existing key keeps its
position).  `undefined` results of property reads are modelled as `Option`.
JS `Array.prototype.includes`-style substring search, `trim`, and
`toLowerCase` are modelled with the corresponding Lean `String` operations.
-/

namespace OpenMct

/-- A raised JS `Error` vs. a normal value; used where a code path can throw. -/
abbrev JSResult (α : Type) := Except String α

/-- Structural `{namespace, key}` pair naming a graph node. -/
structure Identifier where
  ns : String
  key : String
deriving DecidableEq, Repr

/-- Modelled from the spec: the identifier↔keyString codec lives in the
external Object Graph Source (`openmct.objects.makeKeyString`); the spec says
a KeyString is "the canonical string encoding of an Identifier".  Any
injective encoding will do; we use the usual `namespace:key` form with a bare
`key` when the namespace is empty (so the ROOT identifier encodes as
`"ROOT"`). -/
def makeKeyString (identifier : Identifier) : String :=
  if identifier.ns = "" then identifier.key
  else identifier.ns ++ ":" ++ identifier.key

/-- The `{entryId?}` payload stored per target keyString of an annotation. -/
structure AnnTarget where
  entryId : Option String
deriving DecidableEq, Repr

/-- The denormalized snapshot built by `localIndexItem`:
`{type, name, keyString}`, extended (for annotation-typed objects only) with
`targets` and `tags`.  For non-annotation entries the extra fields stay at
their defaults, modelling the absent JS properties. -/
structure IndexEntry where
  type_ : String
  name : String
  keyString : String
  tags : List String := []
  targets : List (String × AnnTarget) := []
deriving DecidableEq, Repr

/-- A domain object as consumed by the provider: its identity, payload, and
the child identifiers its composition resolves to (`none` models
`openmct.composition.get(domainObject) === undefined`). -/
structure DomainObject where
  identifier : Identifier
  type_ : String
  name : String
  tags : List String := []
  targets : List (String × AnnTarget) := []
  children : Option (List Identifier) := none
deriving DecidableEq, Repr

/-! ### JS string / dictionary primitives -/

/-- Check that a character list starts with the given pattern. -/
def startsWithL : List Char → List Char → Bool
  | _, [] => true
  | [], _ :: _ => false
  | a :: as, b :: bs => a == b && startsWithL as bs

/-- Check that a character list contains the pattern as a contiguous run. -/
def containsL : List Char → List Char → Bool
  | s, pat =>
    match s with
    | [] => startsWithL [] pat
    | _ :: rest => startsWithL s pat || containsL rest pat

/-- JS `String.prototype.includes`: substring containment (the empty pattern
is contained in every string, as in JS). -/
def jsIncludes (s pat : String) : Bool :=
  containsL s.toList pat.toList

/-- JS `String.prototype.toLowerCase` (ASCII model, character-wise). -/
def jsToLowerCase (s : String) : String := ⟨s.data.map Char.toLower⟩

/-- JS `String.prototype.trim`: strip leading and trailing whitespace. -/
def jsTrim (s : String) : String :=
  ⟨((s.data.dropWhile Char.isWhitespace).reverse.dropWhile Char.isWhitespace).reverse⟩

/-- JS `obj[key] = value` on an object used as a dictionary: overwrite in
place when the key exists, append otherwise. -/
def insertA (m : List (String × α)) (k : String) (v : α) : List (String × α) :=
  if m.any (fun p => p.1 == k) then
    m.map (fun p => if p.1 == k then (p.1, v) else p)
  else m ++ [(k, v)]

/-- JS `if (!obj[key]) { obj[key] = [] }; obj[key].push(v)`. -/
def pushA (m : List (String × List α)) (k : String) (v : α) : List (String × List α) :=
  if m.any (fun p => p.1 == k) then
    m.map (fun p => if p.1 == k then (p.1, p.2 ++ [v]) else p)
  else m ++ [(k, [v])]

/-! ### AnnotationAPI -/

/-- The frozen `this.ANNOTATION_TYPES` name→value table from the
`AnnotationAPI` constructor. -/
def ANNOTATION_TYPES : List (String × String) :=
  [("NOTEBOOK", "notebook"),
   ("GEOSPATIAL", "geospatial"),
   ("PIXEL_SPATIAL", "pixelspatial"),
   ("TEMPORAL", "temporal"),
   ("PLOT_SPATIAL", "plotspatial")]

/-- Outcome of the validation prologue of `AnnotationAPI.create` (the two
`throw` statements that run before anything is fetched or saved). -/
inductive CreateValidation
  | unknownAnnotationType (t : String)
  | missingTargets
  | passes
deriving DecidableEq, Repr

/-- The validation prologue of `AnnotationAPI.create`, verbatim: it throws
`Unknown annotation type` when `Object.keys(this.ANNOTATION_TYPES)` *does*
contain the supplied `annotationType`, and `At least one target is required`
when the `targets` dictionary is empty. -/
def createValidate (annotationType : String) (targets : List (String × AnnTarget)) :
    CreateValidation :=
  if (ANNOTATION_TYPES.map Prod.fst).contains annotationType then
    .unknownAnnotationType annotationType
  else if targets.isEmpty then .missingTargets
  else .passes

/-- Model of `AnnotationAPI.getMatchingTags(query)`: the keys of the available-tags
dictionary whose `label` contains the query as a (case-sensitive)
substring.  The dictionary content comes from an external JSON file, so it is
a parameter (key → label). -/
def getMatchingTags (availableTagsDict : List (String × String)) (query : String) :
    List String :=
  (availableTagsDict.map Prod.fst).filter (fun tagKey =>
    match availableTagsDict.lookup tagKey with
    | some label => jsIncludes label query
    | none => false)

/-! ### InMemorySearchProvider state -/

/-- Constructor constant `this.MAX_CONCURRENT_REQUESTS`. -/
def MAX_CONCURRENT_REQUESTS : Nat := 100

/-- Constructor constant `this.DEFAULT_MAX_RESULTS`. -/
def DEFAULT_MAX_RESULTS : Nat := 100

/-- The mutable fields of an `InMemorySearchProvider` instance.
`indexedIds` stores the keyStrings for which the two mutation observers have
been registered (`indexedCompositions` is populated in lockstep with it in
the source, so one field models both).  `inFlight` and `toDecrement` record
the suspended continuations of `beginIndexRequest`: a keyString enters
`inFlight` when its fetch is started (the synchronous prefix of
`beginIndexRequest` ran) and `toDecrement` when its `setTimeout(…, 0)`
decrement callback has been queued but has not yet run. -/
structure Provider where
  indexedIds : List String := []
  pendingIndex : List String := []
  idsToIndex : List String := []
  pendingRequests : Nat := 0
  inFlight : List String := []
  toDecrement : List String := []
  worker : Bool := false
  localIndexedDomainObjects : List (String × IndexEntry) := []
  localIndexedAnnotationsByDomainObject : List (String × List IndexEntry) := []
  localIndexedAnnotationsByTag : List (String × List IndexEntry) := []
  pendingQueries : List String := []
deriving DecidableEq, Repr

/-- The provider state right after the constructor ran. -/
def initialProvider : Provider := {}

/-- What the provider consumes from the external Object Graph Source when
scheduling: `hasNativeSearch k` models
`getProvider(identifier) !== undefined && getProvider(identifier).search !== undefined`. -/
structure Env where
  hasNativeSearch : String → Bool

/-- An environment in which no object provider has a native `search`. -/
def envNoNative : Env := ⟨fun _ => false⟩

/-! ### Scheduler -/

/-- One pass of the `keepIndexing` while-loop, driven by a fuel list.  Each
iteration is the synchronous prefix of an un-awaited `beginIndexRequest`
call: it shifts a keyString off `idsToIndex`, increments `pendingRequests`,
and suspends at `await this.openmct.objects.get(keyString)` (recorded by
appending the keyString to `inFlight`).  The loop body never grows
`idsToIndex`, so running with fuel equal to the initial queue is exactly the
`while` loop. -/
def keepIndexingGo : List String → Provider → Provider
  | [], p => p
  | _ :: fuel, p =>
    match p.idsToIndex with
    | [] => p
    | k :: rest =>
      if p.pendingRequests < MAX_CONCURRENT_REQUESTS then
        keepIndexingGo fuel
          { p with idsToIndex := rest,
                   pendingRequests := p.pendingRequests + 1,
                   inFlight := p.inFlight ++ [k] }
      else p

/-- Model of `InMemorySearchProvider.keepIndexing`. -/
def keepIndexing (p : Provider) : Provider :=
  keepIndexingGo p.idsToIndex p

/-- The enqueue guard of `scheduleForIndexing` (everything before its final
`this.keepIndexing()` call): enqueue iff the owning provider has no native
search and the keyString is neither indexed nor pending. -/
def scheduleCore (env : Env) (p : Provider) (keyString : String) : Provider :=
  if !(env.hasNativeSearch keyString) then
    if !(p.indexedIds.contains keyString) && !(p.pendingIndex.contains keyString) then
      { p with pendingIndex := keyString :: p.pendingIndex,
               idsToIndex := p.idsToIndex ++ [keyString] }
    else p
  else p

/-- Model of `InMemorySearchProvider.scheduleForIndexing`, at the granularity
of the already-computed keyString: the enqueue guard followed by
`keepIndexing`. -/
def scheduleKS (env : Env) (p : Provider) (keyString : String) : Provider :=
  keepIndexing (scheduleCore env p keyString)

/-- Model of `InMemorySearchProvider.scheduleForIndexing(identifier)`. -/
def scheduleForIndexing (env : Env) (p : Provider) (identifier : Identifier) : Provider :=
  scheduleKS env p (makeKeyString identifier)

/-! ### Indexer -/

/-- Model of `InMemorySearchProvider.localIndexItem(keyString, model)`. -/
def localIndexItem (p : Provider) (keyString : String) (model : DomainObject) : Provider :=
  if model.type_ == "annotation" then
    let objectToIndex : IndexEntry :=
      { type_ := model.type_, name := model.name, keyString := keyString,
        tags := model.tags, targets := model.targets }
    let p1 := model.targets.foldl
      (fun q t =>
        { q with localIndexedAnnotationsByDomainObject :=
            pushA q.localIndexedAnnotationsByDomainObject t.1 objectToIndex }) p
    model.tags.foldl
      (fun q tagID =>
        { q with localIndexedAnnotationsByTag :=
            pushA q.localIndexedAnnotationsByTag tagID objectToIndex }) p1
  else
    let objectToIndex : IndexEntry :=
      { type_ := model.type_, name := model.name, keyString := keyString }
    { p with localIndexedDomainObjects :=
        insertA p.localIndexedDomainObjects keyString objectToIndex }

/-- Model of `InMemorySearchProvider.index(domainObject)` (local-variant effect on the
provider state): register the name/composition observers on first sight,
forward the entry to the store unless the keyString is `'ROOT'` (and unless a
worker is active, in which case the entry goes to the worker, not the local
store), then schedule every composition child. -/
def index (env : Env) (p : Provider) (domainObject : DomainObject) : Provider :=
  let keyString := makeKeyString domainObject.identifier
  let p1 :=
    if p.indexedIds.contains keyString then p
    else { p with indexedIds := p.indexedIds ++ [keyString] }
  let p2 :=
    if keyString == "ROOT" then p1
    else if p1.worker then p1
    else localIndexItem p1 keyString domainObject
  match domainObject.children with
  | none => p2
  | some children => children.foldl (fun q c => scheduleForIndexing env q c) p2

/-! ### beginIndexRequest -/

/-- Result of `await this.openmct.objects.get(keyString)`: the promise either
rejects (`failure`) or resolves, possibly with no object. -/
inductive FetchOutcome
  | failure
  | success (objR : Option DomainObject)

/-- One complete run of `InMemorySearchProvider.beginIndexRequest` (through
the queued `setTimeout` decrement), returning the resulting provider state
and whether an exception escaped the async function (rejecting its promise).
The `await objects.get` sits **outside** the `try`, so its rejection aborts
the run before the `pendingIndex` delete, the `try`/`catch`, and the
`setTimeout` registration.  A throw from `provider.index` inside the `try`
is caught and logged (`indexThrows` models a throw at the start of the index
call). -/
def beginIndexRequest (env : Env) (fetch : String → FetchOutcome) (indexThrows : Bool)
    (p : Provider) : Provider × Bool :=
  match p.idsToIndex with
  | [] => (p, false)
  | keyString :: rest =>
    let p1 := { p with idsToIndex := rest, pendingRequests := p.pendingRequests + 1 }
    match fetch keyString with
    | .failure => (p1, true)
    | .success objR =>
      let p2 := { p1 with pendingIndex := p1.pendingIndex.erase keyString }
      let p3 :=
        match objR with
        | some domainObject => if indexThrows then p2 else index env p2 domainObject
        | none => p2
      let p4 := keepIndexing { p3 with pendingRequests := p3.pendingRequests - 1 }
      (p4, false)

/-! ### startIndexing / backend selection -/

/-- The backend-selection branch of `startIndexing`: the host-capability test
`typeof SharedWorker !== 'undefined'` is commented out in the source and
replaced by the literal `if (false)`, so the shared-worker branch never
runs regardless of the host's capability. -/
def startIndexingSelectsWorker (hostSupportsSharedWorker : Bool) : Bool :=
  if false then hostSupportsSharedWorker else false

/-- Model of `InMemorySearchProvider.startIndexing`: schedule the root identifier,
schedule every already-loaded annotation object (`indexAnnotations`), and
run the backend-selection branch. -/
def startIndexing (env : Env) (annotationIds : List Identifier)
    (hostSupportsSharedWorker : Bool) (rootIdentifier : Identifier)
    (p : Provider) : Provider :=
  let p1 := scheduleForIndexing env p rootIdentifier
  let p2 := annotationIds.foldl (fun q a => scheduleForIndexing env q a) p1
  { p2 with worker := startIndexingSelectsWorker hostSupportsSharedWorker }

/-! ### Local search backends -/

/-- The `{total, results}` message produced by the name/annotation backends. -/
structure SearchMessage where
  total : Nat
  results : List IndexEntry
deriving DecidableEq, Repr

/-- The `{total, results}` message produced by the tag backend.  Elements are
`Option IndexEntry` because `Array.prototype.concat(undefined)` appends the
single element `undefined` (modelled `none`) when a matching tag has no
entry in the tag-centric index. -/
structure TagSearchMessage where
  total : Nat
  results : List (Option IndexEntry)
deriving DecidableEq, Repr

/-- Model of `if (!maxResults) maxResults = this.DEFAULT_MAX_RESULTS` from
`search`: both `undefined` and `0` are falsy. -/
def resolveMaxResults : Option Nat → Nat
  | none => DEFAULT_MAX_RESULTS
  | some n => if n = 0 then DEFAULT_MAX_RESULTS else n

/-- Model of `InMemorySearchProvider.localSearchForObjects`: lowercase and trim the
input, filter the values of the primary store by case-lowered substring
match on `name`, report the full match count as `total` and the first
`maxResults` matches as `results`. -/
def localSearchForObjects (p : Provider) (searchInput : String) (maxResults : Nat) :
    SearchMessage :=
  let input := jsToLowerCase (jsTrim searchInput)
  let results := (p.localIndexedDomainObjects.map Prod.snd).filter
    (fun indexedItem => jsIncludes (jsToLowerCase indexedItem.name) input)
  { total := results.length, results := results.take maxResults }

/-- Behavior of `searchForObjects` through `search` with the local fallback active
(`this.worker` is never set, see `startIndexingSelectsWorker`). -/
def searchForObjects (p : Provider) (searchInput : String) (maxResults : Option Nat) :
    SearchMessage :=
  localSearchForObjects p searchInput (resolveMaxResults maxResults)

/-- Model of `InMemorySearchProvider.localSearchForAnnotations`: it reads
`this.localIndexedAnnotationsByDomainObject[searchInput]` and immediately
takes `.length` of it; when the key is absent the read yields `undefined`
and the `.length` access throws a `TypeError` (the `.error` branch), so no
result message is produced. -/
def localSearchForAnnotationsCore (p : Provider) (searchInput : String)
    (maxResults : Nat) : JSResult SearchMessage :=
  match p.localIndexedAnnotationsByDomainObject.lookup searchInput with
  | none => .error "TypeError: results is undefined"
  | some results => .ok { total := results.length, results := results.take maxResults }

/-- Behavior of `searchForAnnotations` through `search` with the local fallback: a fresh
pending-query record is stored first; when the local backend throws, the
exception propagates out of `search`'s caller path and the record is never
resolved (modelled by leaving `queryId` in `pendingQueries` and returning no
message); on success `onWorkerMessage` resolves and deletes the record. -/
def searchForAnnotationsLocal (p : Provider) (queryId : String) (searchInput : String)
    (maxResults : Option Nat) : Provider × Option SearchMessage :=
  let p1 := { p with pendingQueries := p.pendingQueries ++ [queryId] }
  match localSearchForAnnotationsCore p1 searchInput (resolveMaxResults maxResults) with
  | .error _ => (p1, none)
  | .ok msg =>
    ({ p1 with pendingQueries := p1.pendingQueries.erase queryId }, some msg)

/-- Model of `InMemorySearchProvider.localSearchForTags`: for each matching tag key a
direct lookup into the tag-centric index, accumulated with
`results = results.concat(matchingAnnotations)` — a lookup of an absent key
concatenates `undefined`, which JS appends as one element (`none`).
`matchingTagKeys = none` models the `if (matchingTagKeys)` falsy guard. -/
def localSearchForTags (p : Provider) (matchingTagKeys : Option (List String))
    (maxResults : Nat) : TagSearchMessage :=
  let results : List (Option IndexEntry) :=
    match matchingTagKeys with
    | none => []
    | some keys =>
      keys.foldl
        (fun acc matchingTag =>
          match p.localIndexedAnnotationsByTag.lookup matchingTag with
          | some matchingAnnotations => acc ++ matchingAnnotations.map some
          | none => acc ++ [none]) []
  { total := results.length, results := results.take maxResults }

/-- End-to-end tag search: `AnnotationAPI.getMatchingTags` expands the text
query to tag keys, which the provider's tag backend then looks up. -/
def tagSearch (availableTagsDict : List (String × String)) (p : Provider)
    (query : String) (maxResults : Nat) : TagSearchMessage :=
  localSearchForTags p (some (getMatchingTags availableTagsDict query)) maxResults

/-! ### Change Observer -/

/-- Modelled from the spec: `openmct.objects.areIdsEqual` belongs to the
external Object Graph Source; the spec describes it as the
"identifier-equality predicate" over identifiers "compared by value, never
by reference".  It is variadic in the source, so it takes the list of
identifiers to compare. -/
def areIdsEqual (identifiers : List Identifier) : Bool :=
  match identifiers with
  | [] => true
  | first :: rest => rest.all (fun identifier => identifier == first)

/-- The diff computed by `onCompositionMutation`: members of the new
composition for which no member of the last-known composition is
identifier-equal. -/
def compositionDiff (indexedComposition newComposition : List Identifier) :
    List Identifier :=
  newComposition.filter (fun identifier =>
    !(indexedComposition.any (fun indexedIdentifier =>
      areIdsEqual [identifier, indexedIdentifier])))

/-- Model of `InMemorySearchProvider.onCompositionMutation(domainObject, composition)`:
fetch and `index` each identifier of the diff (a failed fetch indexes
nothing for that identifier). -/
def onCompositionMutation (env : Env) (fetch : Identifier → Option DomainObject)
    (p : Provider) (indexedComposition newComposition : List Identifier) : Provider :=
  (compositionDiff indexedComposition newComposition).foldl
    (fun q identifier =>
      match fetch identifier with
      | some objectToIndex => index env q objectToIndex
      | none => q) p

/-! ### Interleaving semantics

Execution is single-threaded and cooperative: the only suspension points are
the object fetch inside `beginIndexRequest` (entry into `inFlight`), the
`setTimeout` decrement callback (entry into `toDecrement`), and composition
loading.  A `Step` is one maximal synchronous segment of the source between
suspension points. -/

/-- Continuation of `beginIndexRequest` once `await objects.get(keyString)`
has resolved: delete the keyString from the pending set, run `index` when an
object came back (its registration of `indexedIds` happens synchronously
with the delete), and queue the `setTimeout` decrement. -/
def beginIndexFinish (env : Env) (p : Provider) (k : String)
    (objR : Option DomainObject) : Provider :=
  let p1 := { p with inFlight := p.inFlight.erase k,
                     pendingIndex := p.pendingIndex.erase k }
  let p2 :=
    match objR with
    | some domainObject => index env p1 domainObject
    | none => p1
  { p2 with toDecrement := p2.toDecrement ++ [k] }

/-- One cooperative step of the scheduler: an external `scheduleForIndexing`
call, the resolution or rejection of an in-flight fetch, or the
`setTimeout` decrement callback.  A rejected fetch kills the async function
before the `try`, so only the continuation record disappears. -/
inductive Step (env : Env) : Provider → Provider → Prop
  | schedule (p : Provider) (identifier : Identifier) :
      Step env p (scheduleForIndexing env p identifier)
  | fetchResolved (p : Provider) (k : String) (objR : Option DomainObject)
      (hk : k ∈ p.inFlight) : Step env p (beginIndexFinish env p k objR)
  | fetchRejected (p : Provider) (k : String) (hk : k ∈ p.inFlight) :
      Step env p { p with inFlight := p.inFlight.erase k }
  | timeoutDecrement (p : Provider) (k : String) (hk : k ∈ p.toDecrement) :
      Step env p (keepIndexing
        { p with toDecrement := p.toDecrement.erase k,
                 pendingRequests := p.pendingRequests - 1 })

/-- States reachable from the freshly constructed provider by any
interleaving of steps. -/
inductive Reachable (env : Env) : Provider → Prop
  | init : Reachable env initialProvider
  | step {p q : Provider} : Reachable env p → Step env p q → Reachable env q

/-! ### Views, invariants and concrete fixtures -/

/-- Projection of the provider state onto the fields the Scheduler works
with; used to transport scheduler invariants across store-only updates. -/
def schedView (q : Provider) :
    Nat × List String × List String × List String × List String × List String × Bool :=
  (q.pendingRequests, q.idsToIndex, q.pendingIndex, q.indexedIds,
   q.inFlight, q.toDecrement, q.worker)

/-- Projection of the provider state onto the Index Store and query fields;
used to show scheduling never touches the backend-visible stores. -/
def storesView (q : Provider) :
    List (String × IndexEntry) × List (String × List IndexEntry) ×
      List (String × List IndexEntry) × List String :=
  (q.localIndexedDomainObjects, q.localIndexedAnnotationsByDomainObject,
   q.localIndexedAnnotationsByTag, q.pendingQueries)

/-- The pending-request counter never exceeds the concurrency ceiling. -/
def BoundedReq (p : Provider) : Prop :=
  p.pendingRequests ≤ MAX_CONCURRENT_REQUESTS

/-- After every synchronous segment, either the ceiling is reached or the
queue has been drained into flight (a `keepIndexing` postcondition). -/
def Saturated (p : Provider) : Prop :=
  MAX_CONCURRENT_REQUESTS ≤ p.pendingRequests ∨ p.idsToIndex = []

/-- The two scheduler invariants together. -/
def SchedInv (p : Provider) : Prop := BoundedReq p ∧ Saturated p

/-- A concrete fixture: the synthetic root object with two children. -/
def rootObj : DomainObject :=
  { identifier := ⟨"", "ROOT"⟩, type_ := "root", name := "The root",
    children := some [⟨"", "a"⟩, ⟨"", "b"⟩] }

/-- A fetch function whose promise always rejects. -/
def fetchFails : String → FetchOutcome := fun _ => .failure

/-- A provider with one scheduled identifier awaiting its index request. -/
def provPendingA : Provider := { idsToIndex := ["a"], pendingIndex := ["a"] }

/-- A non-empty targets dictionary. -/
def oneTarget : List (String × AnnTarget) := [("target-key", ⟨none⟩)]

/-- The claim's match predicate, as literally stated: the entry name
contains the raw search input as a case-insensitive substring. -/
def nameContainsRawCI (indexedItem : IndexEntry) (rawInput : String) : Bool :=
  jsIncludes (jsToLowerCase indexedItem.name) (jsToLowerCase rawInput)

/-- The code's actual match predicate: the entry name contains the
whitespace-trimmed input as a case-insensitive substring. -/
def nameMatches (indexedItem : IndexEntry) (rawInput : String) : Bool :=
  jsIncludes (jsToLowerCase indexedItem.name) (jsToLowerCase (jsTrim rawInput))

/-- A primary-index fixture holding one entry named `xa`. -/
def entryXa : IndexEntry := { type_ := "folder", name := "xa", keyString := "k1" }

/-- A provider whose primary index holds exactly `entryXa`. -/
def provXa : Provider := { localIndexedDomainObjects := [("k1", entryXa)] }

/-- The contribution of one matching tag key to the concatenated results:
its per-tag list when the key is present in the tag-centric index, or the
single `undefined` element appended by `concat(undefined)` when absent. -/
def perTagLookup (p : Provider) (t : String) : List (Option IndexEntry) :=
  match p.localIndexedAnnotationsByTag.lookup t with
  | some matchingAnnotations => matchingAnnotations.map some
  | none => [none]

/-- An annotation entry tagged `t1`. -/
def annA : IndexEntry :=
  { type_ := "annotation", name := "a note", keyString := "a1",
    tags := ["t1"], targets := [("targ", ⟨none⟩)] }

/-- A tag dictionary with two labels both containing `sci`. -/
def tagDict2 : List (String × String) := [("t1", "science"), ("t2", "scientific")]

/-- A provider whose tag-centric index holds `annA` under `t1` only. -/
def provTag : Provider := { localIndexedAnnotationsByTag := [("t1", [annA])] }

/-! ### Helper lemmas -/

theorem foldl_preserves {α : Type _} {β : Type _} (P : β → Prop) (f : β → α → β)
    (hf : ∀ b a, P b → P (f b a)) :
    ∀ (l : List α) (b : β), P b → P (l.foldl f b) := by
  intro l
  induction l with
  | nil => intro b hb; simpa using hb
  | cons x xs ih => intro b hb; simpa using ih (f b x) (hf b x hb)

theorem keepIndexingGo_spec (fuel : List String) :
    ∀ p : Provider, p.idsToIndex.length ≤ fuel.length →
    ∃ n, keepIndexingGo fuel p =
        { p with idsToIndex := p.idsToIndex.drop n,
                 pendingRequests := p.pendingRequests + n,
                 inFlight := p.inFlight ++ p.idsToIndex.take n }
      ∧ (n = 0 ∨ p.pendingRequests + n ≤ MAX_CONCURRENT_REQUESTS)
      ∧ (MAX_CONCURRENT_REQUESTS ≤ p.pendingRequests + n ∨ p.idsToIndex.drop n = []) := by
  induction fuel with
  | nil =>
    rintro ⟨ii, pin, iti, pr, inf, td, w, o1, o2, o3, pq⟩ h
    have hq : iti = [] := List.length_eq_zero.mp (Nat.le_zero.mp h)
    subst hq
    exact ⟨0, by simp [keepIndexingGo], Or.inl rfl, Or.inr rfl⟩
  | cons f fs ih =>
    rintro ⟨ii, pin, iti, pr, inf, td, w, o1, o2, o3, pq⟩ h
    cases iti with
    | nil => exact ⟨0, by simp [keepIndexingGo], Or.inl rfl, Or.inr rfl⟩
    | cons k rest =>
      by_cases hlt : pr < MAX_CONCURRENT_REQUESTS
      · have h' : (k :: rest).length ≤ (f :: fs).length := h
        have hlen : rest.length ≤ fs.length := by simpa using h' 
        obtain ⟨n, heq, hc1, hc2⟩ :=
          ih ⟨ii, pin, rest, pr + 1, inf ++ [k], td, w, o1, o2, o3, pq⟩ hlen
        refine ⟨n + 1, ?_, ?_, ?_⟩
        · have hstep :
              keepIndexingGo (f :: fs) ⟨ii, pin, k :: rest, pr, inf, td, w, o1, o2, o3, pq⟩ =
              keepIndexingGo fs ⟨ii, pin, rest, pr + 1, inf ++ [k], td, w, o1, o2, o3, pq⟩ := by
            simp [keepIndexingGo, hlt]
          rw [hstep, heq]
          simp [List.append_assoc]
          omega
        · rcases hc1 with hc1 | hc1
          · subst hc1; right; exact hlt
          · right
            have hc1' : pr + 1 + n ≤ MAX_CONCURRENT_REQUESTS := hc1
            show pr + (n + 1) ≤ MAX_CONCURRENT_REQUESTS
            omega
        · rcases hc2 with hc2 | hc2
          · left
            have hc2' : MAX_CONCURRENT_REQUESTS ≤ pr + 1 + n := hc2
            show MAX_CONCURRENT_REQUESTS ≤ pr + (n + 1)
            omega
          · right
            have hc2' : List.drop n rest = [] := hc2
            show List.drop (n + 1) (k :: rest) = []
            simpa using hc2' 
      · exact ⟨0, by simp [keepIndexingGo, hlt], Or.inl rfl,
          Or.inl (Nat.le_of_not_lt hlt)⟩

theorem keepIndexing_spec (p : Provider) :
    ∃ n, keepIndexing p =
        { p with idsToIndex := p.idsToIndex.drop n,
                 pendingRequests := p.pendingRequests + n,
                 inFlight := p.inFlight ++ p.idsToIndex.take n }
      ∧ (n = 0 ∨ p.pendingRequests + n ≤ MAX_CONCURRENT_REQUESTS)
      ∧ (MAX_CONCURRENT_REQUESTS ≤ p.pendingRequests + n ∨ p.idsToIndex.drop n = []) :=
  keepIndexingGo_spec p.idsToIndex p (Nat.le_refl _)

theorem keepIndexing_unchanged (p : Provider) :
    (keepIndexing p).pendingIndex = p.pendingIndex ∧
    (keepIndexing p).indexedIds = p.indexedIds ∧
    (keepIndexing p).toDecrement = p.toDecrement ∧
    (keepIndexing p).worker = p.worker ∧
    (keepIndexing p).localIndexedDomainObjects = p.localIndexedDomainObjects ∧
    (keepIndexing p).localIndexedAnnotationsByDomainObject
      = p.localIndexedAnnotationsByDomainObject ∧
    (keepIndexing p).localIndexedAnnotationsByTag = p.localIndexedAnnotationsByTag ∧
    (keepIndexing p).pendingQueries = p.pendingQueries := by
  obtain ⟨n, heq, -, -⟩ := keepIndexing_spec p
  rw [heq]
  exact ⟨rfl, rfl, rfl, rfl, rfl, rfl, rfl, rfl⟩

theorem keepIndexing_bound (p : Provider)
    (h : p.pendingRequests ≤ MAX_CONCURRENT_REQUESTS) :
    (keepIndexing p).pendingRequests ≤ MAX_CONCURRENT_REQUESTS := by
  obtain ⟨n, heq, hc1, -⟩ := keepIndexing_spec p
  rw [heq]
  rcases hc1 with hc1 | hc1
  · subst hc1; simpa using h
  · simpa using hc1

theorem keepIndexing_sat (p : Provider) :
    MAX_CONCURRENT_REQUESTS ≤ (keepIndexing p).pendingRequests ∨
    (keepIndexing p).idsToIndex = [] := by
  obtain ⟨n, heq, -, hc2⟩ := keepIndexing_spec p
  rw [heq]
  exact hc2

theorem keepIndexing_id (p : Provider)
    (h : MAX_CONCURRENT_REQUESTS ≤ p.pendingRequests ∨ p.idsToIndex = []) :
    keepIndexing p = p := by
  unfold keepIndexing
  match hq : p.idsToIndex with
  | [] => simp [keepIndexingGo, hq]
  | k :: rest =>
    have hge : MAX_CONCURRENT_REQUESTS ≤ p.pendingRequests := by
      rcases h with h | h
      · exact h
      · rw [hq] at h; cases h
    have hnlt : ¬ p.pendingRequests < MAX_CONCURRENT_REQUESTS := Nat.not_lt.mpr hge
    simp [keepIndexingGo, hq, hnlt]

theorem keepIndexing_storesView (p : Provider) :
    storesView (keepIndexing p) = storesView p := by
  obtain ⟨-, -, -, -, h5, h6, h7, h8⟩ := keepIndexing_unchanged p
  simp [storesView, h5, h6, h7, h8]

theorem scheduleCore_storesView (env : Env) (p : Provider) (k : String) :
    storesView (scheduleCore env p k) = storesView p := by
  unfold scheduleCore
  split
  · split
    · rfl
    · rfl
  · rfl

theorem scheduleKS_storesView (env : Env) (p : Provider) (k : String) :
    storesView (scheduleKS env p k) = storesView p := by
  unfold scheduleKS
  rw [keepIndexing_storesView, scheduleCore_storesView]

theorem scheduleCore_pendingRequests (env : Env) (p : Provider) (k : String) :
    (scheduleCore env p k).pendingRequests = p.pendingRequests := by
  unfold scheduleCore
  split
  · split
    · rfl
    · rfl
  · rfl

theorem scheduleCore_indexedIds (env : Env) (p : Provider) (k : String) :
    (scheduleCore env p k).indexedIds = p.indexedIds := by
  unfold scheduleCore
  split
  · split
    · rfl
    · rfl
  · rfl

theorem scheduleCore_pendingIndex (env : Env) (p : Provider) (k : String) :
    (scheduleCore env p k).pendingIndex =
      (if !(env.hasNativeSearch k) &&
          (!(p.indexedIds.contains k) && !(p.pendingIndex.contains k))
       then k :: p.pendingIndex else p.pendingIndex) := by
  cases hN : env.hasNativeSearch k <;>
    cases hC : p.indexedIds.contains k <;>
      cases hP : p.pendingIndex.contains k <;>
        simp only [scheduleCore, hN, hC, hP] <;> simp

theorem scheduleKS_pendingIndex (env : Env) (p : Provider) (k : String) :
    (scheduleKS env p k).pendingIndex =
      (if !(env.hasNativeSearch k) &&
          (!(p.indexedIds.contains k) && !(p.pendingIndex.contains k))
       then k :: p.pendingIndex else p.pendingIndex) := by
  unfold scheduleKS
  rw [(keepIndexing_unchanged _).1, scheduleCore_pendingIndex]

theorem scheduleKS_indexedIds (env : Env) (p : Provider) (k : String) :
    (scheduleKS env p k).indexedIds = p.indexedIds := by
  unfold scheduleKS
  rw [(keepIndexing_unchanged _).2.1, scheduleCore_indexedIds]

/-! ### Scheduler invariants -/

theorem keepIndexing_schedinv (p : Provider) (h : BoundedReq p) :
    SchedInv (keepIndexing p) :=
  ⟨keepIndexing_bound p h, keepIndexing_sat p⟩

theorem scheduleKS_schedinv (env : Env) (p : Provider) (k : String)
    (h : BoundedReq p) : SchedInv (scheduleKS env p k) := by
  unfold scheduleKS
  apply keepIndexing_schedinv
  show (scheduleCore env p k).pendingRequests ≤ MAX_CONCURRENT_REQUESTS
  rw [scheduleCore_pendingRequests]
  exact h

theorem scheduleKS_noop (env : Env) (p : Provider) (k : String)
    (hsat : Saturated p)
    (hmem : p.pendingIndex.contains k = true ∨ p.indexedIds.contains k = true) :
    scheduleKS env p k = p := by
  have hcore : scheduleCore env p k = p := by
    unfold scheduleCore
    rcases hmem with hm | hm <;> simp only [hm] <;> simp
  unfold scheduleKS
  rw [hcore]
  exact keepIndexing_id p hsat

theorem localIndexItem_schedView (p : Provider) (k : String) (m : DomainObject) :
    schedView (localIndexItem p k m) = schedView p := by
  unfold localIndexItem
  split
  · dsimp only
    refine foldl_preserves (fun q => schedView q = schedView p) _ ?_ m.tags _ ?_
    · intro b a hb; exact hb
    · refine foldl_preserves (fun q => schedView q = schedView p) _ ?_ m.targets p rfl
      intro b a hb; exact hb
  · rfl

theorem schedinv_of_schedView_eq {p q : Provider}
    (h : schedView q = schedView p) (hp : SchedInv p) : SchedInv q := by
  have h1 : q.pendingRequests = p.pendingRequests := congrArg Prod.fst h
  have h2 : q.idsToIndex = p.idsToIndex := congrArg (fun v => v.2.1) h
  unfold SchedInv BoundedReq Saturated at hp ⊢
  rw [h1, h2]
  exact hp

theorem foldl_scheduleForIndexing_schedinv (env : Env) (cs : List Identifier)
    (p : Provider) (h : SchedInv p) :
    SchedInv (cs.foldl (fun q c => scheduleForIndexing env q c) p) :=
  foldl_preserves SchedInv _
    (fun b a hb => scheduleKS_schedinv env b (makeKeyString a) hb.1) cs p h

theorem index_schedinv (env : Env) (p : Provider) (d : DomainObject)
    (h : SchedInv p) : SchedInv (index env p d) := by
  unfold index
  have h1 : SchedInv (if p.indexedIds.contains (makeKeyString d.identifier) then p
      else { p with indexedIds := p.indexedIds ++ [makeKeyString d.identifier] }) := by
    split
    · exact h
    · exact h
  set p1 := (if p.indexedIds.contains (makeKeyString d.identifier) then p
      else { p with indexedIds := p.indexedIds ++ [makeKeyString d.identifier] }) with hp1
  have h2 : SchedInv (if (makeKeyString d.identifier == "ROOT") = true then p1
      else if p1.worker = true then p1 else localIndexItem p1 (makeKeyString d.identifier) d) := by
    split
    · exact h1
    · split
      · exact h1
      · exact schedinv_of_schedView_eq (localIndexItem_schedView p1 _ d) h1
  match d.children with
  | none => exact h2
  | some cs => exact foldl_scheduleForIndexing_schedinv env cs _ h2

theorem beginIndexFinish_schedinv (env : Env) (p : Provider) (k : String)
    (objR : Option DomainObject) (h : SchedInv p) :
    SchedInv (beginIndexFinish env p k objR) := by
  unfold beginIndexFinish
  have h1 : SchedInv { p with inFlight := p.inFlight.erase k,
                              pendingIndex := p.pendingIndex.erase k } := h
  match objR with
  | none => exact h1
  | some d =>
    have h2 := index_schedinv env _ d h1
    exact h2

theorem step_schedinv {env : Env} {p q : Provider} (hs : Step env p q)
    (h : SchedInv p) : SchedInv q := by
  cases hs with
  | schedule identifier => exact scheduleKS_schedinv env p _ h.1
  | fetchResolved k objR hk => exact beginIndexFinish_schedinv env p k objR h
  | fetchRejected k hk => exact h
  | timeoutDecrement k hk =>
    apply keepIndexing_schedinv
    show p.pendingRequests - 1 ≤ MAX_CONCURRENT_REQUESTS
    exact Nat.le_trans (Nat.sub_le _ _) h.1

theorem reachable_schedinv {env : Env} {p : Provider} (h : Reachable env p) :
    SchedInv p := by
  induction h with
  | init => exact ⟨Nat.zero_le _, Or.inr rfl⟩
  | step hr hs ih => exact step_schedinv hs ih

theorem scheduleKS_mem_preserved (env : Env) (p : Provider) (k k' : String)
    (h : p.pendingIndex.contains k = true ∨ p.indexedIds.contains k = true) :
    (scheduleKS env p k').pendingIndex.contains k = true ∨
    (scheduleKS env p k').indexedIds.contains k = true := by
  rw [scheduleKS_pendingIndex, scheduleKS_indexedIds]
  rcases h with h | h
  · left
    split
    · have h' : k ∈ p.pendingIndex := by simpa using h
      simp [h']
    · exact h
  · right; exact h

theorem scheduleKS_establishes (env : Env) (p : Provider) (k : String)
    (hn : env.hasNativeSearch k = false) :
    (scheduleKS env p k).pendingIndex.contains k = true ∨
    (scheduleKS env p k).indexedIds.contains k = true := by
  rw [scheduleKS_pendingIndex, scheduleKS_indexedIds]
  cases hb2 : p.indexedIds.contains k with
  | true => right; rfl
  | false =>
    cases hb3 : p.pendingIndex.contains k with
    | true =>
      left
      have h' : k ∈ p.pendingIndex := by simpa using hb3
      simp [hn, hb2, hb3, h']
    | false => left; simp [hn, hb2, hb3, List.contains_cons]

theorem foldl_scheduleForIndexing_storesView (env : Env) (cs : List Identifier)
    (p : Provider) :
    storesView (cs.foldl (fun q c => scheduleForIndexing env q c) p) = storesView p := by
  refine foldl_preserves (fun q => storesView q = storesView p) _ ?_ cs p rfl
  intro b a hb
  exact (scheduleKS_storesView env b (makeKeyString a)).trans hb

theorem foldl_schedule_child_scheduled (env : Env) (cs : List Identifier) :
    ∀ (p : Provider) (c : Identifier), c ∈ cs →
      env.hasNativeSearch (makeKeyString c) = true ∨
      ((cs.foldl (fun q x => scheduleForIndexing env q x) p).pendingIndex.contains
          (makeKeyString c) = true ∨
       (cs.foldl (fun q x => scheduleForIndexing env q x) p).indexedIds.contains
          (makeKeyString c) = true) := by
  induction cs with
  | nil => intro p c hc; cases hc
  | cons x xs ih =>
    intro p c hc
    simp only [List.foldl_cons]
    rcases List.mem_cons.mp hc with hc | hc
    · subst hc
      cases hn : env.hasNativeSearch (makeKeyString c) with
      | true => left; rfl
      | false =>
        right
        refine foldl_preserves
          (fun q => q.pendingIndex.contains (makeKeyString c) = true ∨
                    q.indexedIds.contains (makeKeyString c) = true)
          (fun q x => scheduleForIndexing env q x) ?_ xs _
          (scheduleKS_establishes env p (makeKeyString c) hn)
        intro b a hb
        exact scheduleKS_mem_preserved env b (makeKeyString c) (makeKeyString a) hb
    · exact ih (scheduleForIndexing env p x) c hc

/-! ### Claim theorems: scheduler -/

/-- C3: in every state reachable by any interleaving of scheduling calls,
fetch completions/failures, and decrement callbacks, the number of
simultaneously in-flight fetch+index operations (`pendingRequests`) never
exceeds `MAX_CONCURRENT_REQUESTS = 100`; moreover `keepIndexing` admits
queued identifiers from the front of `idsToIndex` in FIFO arrival order (it
moves a prefix of the queue, in order, into flight) so excess identifiers
wait in arrival order. -/
theorem indexing_concurrency_ceiling :
    (∀ (env : Env) (p : Provider), Reachable env p →
        p.pendingRequests ≤ MAX_CONCURRENT_REQUESTS) ∧
    (∀ p : Provider, ∃ n,
        keepIndexing p =
          { p with idsToIndex := p.idsToIndex.drop n,
                   pendingRequests := p.pendingRequests + n,
                   inFlight := p.inFlight ++ p.idsToIndex.take n }) := by
  constructor
  · intro env p hr
    exact (reachable_schedinv hr).1
  · intro p
    obtain ⟨n, heq, -, -⟩ := keepIndexing_spec p
    exact ⟨n, heq⟩

theorem indexing_concurrency_ceiling_witness :
    (scheduleForIndexing envNoNative initialProvider ⟨"", "a"⟩).pendingRequests ≤
      MAX_CONCURRENT_REQUESTS :=
  indexing_concurrency_ceiling.1 envNoNative _
    (Reachable.step Reachable.init (Step.schedule initialProvider ⟨"", "a"⟩))

/-- C4: in every reachable state, calling `scheduleForIndexing` again for an
identifier whose keyString is still pending or already indexed (as holds
throughout a scheduled identifier's fetch+index cycle) is a no-op — the
whole provider state, including queue and pending set, is unchanged, so at
most one fetch+index cycle results.  Furthermore the pending set gains the
keyString iff the identifier is neither already indexed nor already pending
and its owning source has no native search capability. -/
theorem scheduleForIndexing_duplicate_noop :
    (∀ (env : Env) (p : Provider), Reachable env p →
      ∀ identifier : Identifier,
        (p.pendingIndex.contains (makeKeyString identifier) = true ∨
         p.indexedIds.contains (makeKeyString identifier) = true) →
        scheduleForIndexing env p identifier = p) ∧
    (∀ (env : Env) (p : Provider) (k : String),
        (scheduleKS env p k).pendingIndex =
          (if !(env.hasNativeSearch k) &&
              (!(p.indexedIds.contains k) && !(p.pendingIndex.contains k))
           then k :: p.pendingIndex else p.pendingIndex)) := by
  constructor
  · intro env p hr identifier hmem
    exact scheduleKS_noop env p _ (reachable_schedinv hr).2 hmem
  · exact scheduleKS_pendingIndex

theorem scheduleForIndexing_duplicate_noop_witness :
    scheduleForIndexing envNoNative
        (scheduleForIndexing envNoNative initialProvider ⟨"", "a"⟩) ⟨"", "a"⟩ =
      scheduleForIndexing envNoNative initialProvider ⟨"", "a"⟩ :=
  scheduleForIndexing_duplicate_noop.1 envNoNative _
    (Reachable.step Reachable.init (Step.schedule initialProvider ⟨"", "a"⟩))
    ⟨"", "a"⟩ (Or.inl (by decide))

/-- C5: indexing an object whose keyString is the synthetic `'ROOT'` adds no
entry to any store visible to the Execution Backend (so root never appears
in search results), while every child identifier in root's composition is
passed to `scheduleForIndexing` — afterwards each child either bypasses the
fallback path (its source searches natively) or sits in the pending set or
the indexed set. -/
theorem index_root_not_surfaced :
    ∀ (env : Env) (p : Provider) (domainObject : DomainObject) (cs : List Identifier),
      makeKeyString domainObject.identifier = "ROOT" →
      domainObject.children = some cs →
      (((index env p domainObject).localIndexedDomainObjects
          = p.localIndexedDomainObjects ∧
        (index env p domainObject).localIndexedAnnotationsByDomainObject
          = p.localIndexedAnnotationsByDomainObject ∧
        (index env p domainObject).localIndexedAnnotationsByTag
          = p.localIndexedAnnotationsByTag) ∧
       ∀ c ∈ cs, env.hasNativeSearch (makeKeyString c) = true ∨
         ((index env p domainObject).pendingIndex.contains (makeKeyString c) = true ∨
          (index env p domainObject).indexedIds.contains (makeKeyString c) = true)) := by
  intro env p d cs hroot hcs
  have hindex : index env p d =
      cs.foldl (fun q x => scheduleForIndexing env q x)
        (if p.indexedIds.contains "ROOT" then p
         else { p with indexedIds := p.indexedIds ++ ["ROOT"] }) := by
    unfold index
    rw [hcs]
    dsimp only
    rw [hroot]
    simp
  have hstores : storesView (index env p d) = storesView p := by
    rw [hindex, foldl_scheduleForIndexing_storesView]
    split
    · rfl
    · rfl
  refine ⟨⟨congrArg (fun v => v.1) hstores, congrArg (fun v => v.2.1) hstores,
      congrArg (fun v => v.2.2.1) hstores⟩, ?_⟩
  intro c hc
  rw [hindex]
  exact foldl_schedule_child_scheduled env cs _ c hc

theorem index_root_not_surfaced_witness :
    ((index envNoNative initialProvider rootObj).localIndexedDomainObjects
        = initialProvider.localIndexedDomainObjects) ∧
    (envNoNative.hasNativeSearch (makeKeyString (⟨"", "a"⟩ : Identifier)) = true ∨
      ((index envNoNative initialProvider rootObj).pendingIndex.contains
          (makeKeyString (⟨"", "a"⟩ : Identifier)) = true ∨
       (index envNoNative initialProvider rootObj).indexedIds.contains
          (makeKeyString (⟨"", "a"⟩ : Identifier)) = true)) :=
  ⟨(index_root_not_surfaced envNoNative initialProvider rootObj
      [⟨"", "a"⟩, ⟨"", "b"⟩] (by decide) rfl).1.1,
   (index_root_not_surfaced envNoNative initialProvider rootObj
      [⟨"", "a"⟩, ⟨"", "b"⟩] (by decide) rfl).2 ⟨"", "a"⟩ (by decide)⟩

/-! ### Claim theorems: beginIndexRequest error handling -/

/-- C2 counterexample: when the asynchronous fetch itself rejects, the
failure is NOT caught (it escapes `beginIndexRequest`), the keyString stays
in the pending set, and the active request count is left incremented, never
decremented — contradicting the claim that fetch failures are caught and
logged with the pending entry removed and the count decremented. -/
theorem beginIndexRequest_fetch_failure_uncaught :
    (beginIndexRequest envNoNative fetchFails false provPendingA).2 = true ∧
    (beginIndexRequest envNoNative fetchFails false provPendingA).1.pendingIndex = ["a"] ∧
    (beginIndexRequest envNoNative fetchFails false provPendingA).1.pendingRequests = 1 :=
  ⟨rfl, rfl, rfl⟩

/-- C2 (amended): the `await objects.get` sits outside the `try`, so a fetch
rejection escapes `beginIndexRequest` uncaught, leaving the keyString in the
pending set (never retried) and the request count incremented forever; only
a failure thrown while indexing an already-fetched object is caught (and
logged), in which case the keyString has been removed from the pending set,
the count is decremented, and `keepIndexing` admits queued work again, so
the failure never reaches a caller. -/
theorem beginIndexRequest_error_handling :
    ∀ (env : Env) (fetch : String → FetchOutcome) (p : Provider)
      (k : String) (rest : List String),
      p.idsToIndex = k :: rest →
      (fetch k = .failure → ∀ indexThrows,
        beginIndexRequest env fetch indexThrows p =
          ({ p with idsToIndex := rest,
                    pendingRequests := p.pendingRequests + 1 }, true)) ∧
      (∀ domainObject, fetch k = .success (some domainObject) →
        ((beginIndexRequest env fetch true p).2 = false ∧
         (beginIndexRequest env fetch true p).1.pendingIndex =
           p.pendingIndex.erase k ∧
         ∃ n, (beginIndexRequest env fetch true p).1.pendingRequests =
                p.pendingRequests + n ∧
              (beginIndexRequest env fetch true p).1.idsToIndex = rest.drop n)) := by
  intro env fetch p k rest hq
  constructor
  · intro hf indexThrows
    simp only [beginIndexRequest, hq, hf]
  · intro d hs
    have hred : beginIndexRequest env fetch true p =
        (keepIndexing { p with idsToIndex := rest,
                               pendingIndex := p.pendingIndex.erase k,
                               pendingRequests := p.pendingRequests + 1 - 1 }, false) := by
      simp only [beginIndexRequest, hq, hs, if_true, reduceIte]
    rw [hred]
    refine ⟨rfl, ?_, ?_⟩
    · rw [(keepIndexing_unchanged _).1]
    · obtain ⟨n, heq, -, -⟩ := keepIndexing_spec
        { p with idsToIndex := rest,
                 pendingIndex := p.pendingIndex.erase k,
                 pendingRequests := p.pendingRequests + 1 - 1 }
      rw [heq]
      exact ⟨n, by simp, rfl⟩

theorem beginIndexRequest_error_handling_witness :
    beginIndexRequest envNoNative fetchFails false provPendingA =
      ({ provPendingA with idsToIndex := [], pendingRequests := 1 }, true) :=
  (beginIndexRequest_error_handling envNoNative fetchFails provPendingA "a" [] rfl).1
    rfl false

/-! ### Claim theorems: AnnotationAPI.create validation -/

/-- C1: the guard in `AnnotationAPI.create` is inverted.  An annotation type
that is unknown (neither a key nor a value of `ANNOTATION_TYPES`) sails
through without any `Unknown annotation type` error; a known type value like
`notebook` also passes; while the listed key `NOTEBOOK` — a member of the
known-type table — is the one input that triggers the
`Unknown annotation type` error, contradicting the error's own message. -/
theorem create_unknown_type_guard_inverted :
    createValidate "made-up-type" oneTarget = .passes ∧
    (ANNOTATION_TYPES.map Prod.fst).contains "made-up-type" = false ∧
    (ANNOTATION_TYPES.map Prod.snd).contains "made-up-type" = false ∧
    createValidate "notebook" oneTarget = .passes ∧
    (ANNOTATION_TYPES.map Prod.snd).contains "notebook" = true ∧
    createValidate "NOTEBOOK" oneTarget = .unknownAnnotationType "NOTEBOOK" := by
  decide

/-! ### Claim theorems: backend selection -/

/-- C8: the host-capability check is hardcoded to `false` (the
`typeof SharedWorker` test is commented out), so the Offloaded variant is
never selected even when the host supports shared background execution
contexts: after `startIndexing` the provider always runs with the Local
variant. -/
theorem startIndexing_never_selects_offloaded :
    startIndexingSelectsWorker true = false ∧
    startIndexingSelectsWorker false = false ∧
    (startIndexing envNoNative [] true ⟨"", "ROOT"⟩ initialProvider).worker = false :=
  ⟨rfl, rfl, rfl⟩

/-! ### Claim theorems: annotation target search totality -/

/-- C10: for a target keyString with no entry in the target-centric index,
`localSearchForAnnotations` reads `.length` of an `undefined` lookup and
throws instead of producing an empty result message; the pending query
record stays unresolved. -/
theorem localSearchForAnnotations_missing_target_throws :
    ∀ (p : Provider) (queryId searchInput : String) (maxResults : Option Nat),
      p.localIndexedAnnotationsByDomainObject.lookup searchInput = none →
      ((searchForAnnotationsLocal p queryId searchInput maxResults).2 = none ∧
       (searchForAnnotationsLocal p queryId searchInput maxResults).1.pendingQueries.contains
          queryId = true ∧
       localSearchForAnnotationsCore p searchInput (resolveMaxResults maxResults) =
         .error "TypeError: results is undefined") := by
  intro p qid input mr h
  have hcore : localSearchForAnnotationsCore p input (resolveMaxResults mr) =
      .error "TypeError: results is undefined" := by
    unfold localSearchForAnnotationsCore
    rw [h]
  have hcore1 : localSearchForAnnotationsCore
      { p with pendingQueries := p.pendingQueries ++ [qid] } input
      (resolveMaxResults mr) = .error "TypeError: results is undefined" := hcore
  refine ⟨?_, ?_, hcore⟩
  · simp [searchForAnnotationsLocal, hcore1]
  · simp [searchForAnnotationsLocal, hcore1]

theorem localSearchForAnnotations_missing_target_throws_witness :
    (searchForAnnotationsLocal initialProvider "q1" "never-annotated" none).2 = none :=
  (localSearchForAnnotations_missing_target_throws initialProvider "q1"
    "never-annotated" none rfl).1

/-! ### Claim theorems: name search -/

/-- C6 counterexample: with the single indexed name `xa`, no indexed name
contains the raw input `" a"` as a case-insensitive substring (the claim
predicts zero matches), yet the code trims the input and reports one match;
and with `maxResults = 0` the claim predicts at most 0 hits while the code
treats 0 as falsy, defaults to 100, and returns 1 hit. -/
theorem searchForObjects_claim_counterexample :
    ((provXa.localIndexedDomainObjects.map Prod.snd).filter
        (fun e => nameContainsRawCI e " a")).length = 0 ∧
    (searchForObjects provXa " a" (some 10)).total = 1 ∧
    (searchForObjects provXa "xa" (some 0)).results.length = 1 := by
  decide

/-- C6 (amended): name search returns exactly the indexed entries whose name
contains the whitespace-trimmed input as a case-insensitive substring, in
index order, truncated to at most `maxResults` hits — where an unspecified
or zero (falsy) `maxResults` becomes `DEFAULT_MAX_RESULTS = 100` — while
`total` is the full pre-truncation match count. -/
theorem searchForObjects_trimmed_ci_substring :
    ∀ (p : Provider) (searchInput : String) (mr : Nat), mr ≠ 0 →
      ((searchForObjects p searchInput (some mr)).results =
        ((p.localIndexedDomainObjects.map Prod.snd).filter
          (fun e => nameMatches e searchInput)).take mr ∧
       (searchForObjects p searchInput (some mr)).total =
        ((p.localIndexedDomainObjects.map Prod.snd).filter
          (fun e => nameMatches e searchInput)).length ∧
       (searchForObjects p searchInput (some mr)).results.length ≤ mr ∧
       searchForObjects p searchInput none =
         searchForObjects p searchInput (some DEFAULT_MAX_RESULTS) ∧
       searchForObjects p searchInput (some 0) =
         searchForObjects p searchInput (some DEFAULT_MAX_RESULTS)) := by
  intro p input mr hmr
  have hres : resolveMaxResults (some mr) = mr := by
    simp [resolveMaxResults, hmr]
  refine ⟨?_, ?_, ?_, rfl, rfl⟩
  · simp [searchForObjects, localSearchForObjects, nameMatches, hres]
  · simp [searchForObjects, localSearchForObjects, nameMatches, hres]
  · simp [searchForObjects, localSearchForObjects, hres, List.length_take]

theorem searchForObjects_trimmed_ci_substring_witness :
    (searchForObjects provXa " a" (some 10)).total =
      ((provXa.localIndexedDomainObjects.map Prod.snd).filter
        (fun e => nameMatches e " a")).length :=
  (searchForObjects_trimmed_ci_substring provXa " a" 10 (by decide)).2.1

/-! ### Claim theorems: tag search -/

theorem foldl_append_eq_join {α : Type _} {β : Type _} (g : α → List β) :
    ∀ (keys : List α) (acc : List β),
      keys.foldl (fun r k => r ++ g k) acc = acc ++ (keys.map g).flatten := by
  intro keys
  induction keys with
  | nil => intro acc; simp
  | cons x xs ih => intro acc; simp [ih, List.append_assoc]

theorem localSearchForTags_results (p : Provider) (keys : List String) (mr : Nat) :
    localSearchForTags p (some keys) mr =
      { total := ((keys.map (perTagLookup p)).flatten).length,
        results := ((keys.map (perTagLookup p)).flatten).take mr } := by
  unfold localSearchForTags
  have hbody : (fun (acc : List (Option IndexEntry)) (matchingTag : String) =>
      match p.localIndexedAnnotationsByTag.lookup matchingTag with
      | some matchingAnnotations => acc ++ matchingAnnotations.map some
      | none => acc ++ [none]) = fun acc t => acc ++ perTagLookup p t := by
    funext acc t
    unfold perTagLookup
    cases p.localIndexedAnnotationsByTag.lookup t <;> rfl
  dsimp only
  rw [hbody, foldl_append_eq_join (perTagLookup p)]
  simp

/-- C7 counterexample: for the query `sci` both dictionary tags match, but
only `t1` has index entries; the claim predicts the concatenation of the
per-tag result lists (total 1), while the code's `concat(undefined)` appends
an `undefined` element for `t2` and reports total 2. -/
theorem tagSearch_claim_counterexample :
    (tagSearch tagDict2 provTag "sci" 100).total = 2 ∧
    ((getMatchingTags tagDict2 "sci").map
        (fun t => (provTag.localIndexedAnnotationsByTag.lookup t).getD [])).flatten.length
      = 1 ∧
    (tagSearch tagDict2 provTag "sci" 100).results = [some annA, none] := by
  decide

/-- C7 (amended): tag search computes the tag ids whose label contains the
query as a substring, then for each such id does a direct lookup into the
tag-centric index; ids present in the index contribute their full result
lists concatenated in tag order with no deduplication, while a matching id
absent from the index contributes a single `undefined` element (counted in
`total`); results are truncated to `maxResults` and `total` is the
pre-truncation length. -/
theorem tagSearch_per_tag_concatenation :
    ∀ (dict : List (String × String)) (p : Provider) (query : String) (mr : Nat),
      (tagSearch dict p query mr).results =
        (((getMatchingTags dict query).map (perTagLookup p)).flatten).take mr ∧
      (tagSearch dict p query mr).total =
        (((getMatchingTags dict query).map (perTagLookup p)).flatten).length := by
  intro dict p query mr
  unfold tagSearch
  rw [localSearchForTags_results]
  exact ⟨rfl, rfl⟩

/-! ### Claim theorems: composition mutation -/

theorem areIdsEqual_pair (a b : Identifier) : areIdsEqual [a, b] = (b == a) := by
  simp [areIdsEqual]

theorem insertA_keys_contains {α : Type _} (m : List (String × α)) (k k' : String)
    (v : α) (h : (m.map Prod.fst).contains k = true) :
    ((insertA m k' v).map Prod.fst).contains k = true := by
  unfold insertA
  split
  · have hkeys : (m.map (fun p => if p.1 == k' then (p.1, v) else p)).map Prod.fst
        = m.map Prod.fst := by
      rw [List.map_map]
      have hf : (Prod.fst ∘ fun p : String × α => if p.1 == k' then (p.1, v) else p)
          = Prod.fst := by
        funext x
        dsimp
        split <;> rfl
      rw [hf]
    rw [hkeys]
    exact h
  · rw [List.map_append]
    have h' : k ∈ m.map Prod.fst := by simpa using h
    simp [h']

theorem localIndexItem_keys_contains (p : Provider) (ks k : String) (m : DomainObject)
    (h : (p.localIndexedDomainObjects.map Prod.fst).contains k = true) :
    ((localIndexItem p ks m).localIndexedDomainObjects.map Prod.fst).contains k
      = true := by
  unfold localIndexItem
  split
  · dsimp only
    refine foldl_preserves
      (fun q : Provider => (q.localIndexedDomainObjects.map Prod.fst).contains k = true)
      _ ?_ m.tags _ ?_
    · intro b a hb; exact hb
    · refine foldl_preserves
        (fun q : Provider => (q.localIndexedDomainObjects.map Prod.fst).contains k = true)
        _ ?_ m.targets p h
      intro b a hb; exact hb
  · exact insertA_keys_contains _ k ks _ h

theorem foldl_scheduleForIndexing_domainObjects (env : Env) (cs : List Identifier)
    (p : Provider) :
    (cs.foldl (fun q c => scheduleForIndexing env q c) p).localIndexedDomainObjects
      = p.localIndexedDomainObjects :=
  congrArg (fun v => v.1) (foldl_scheduleForIndexing_storesView env cs p)

theorem index_keys_contains (env : Env) (p : Provider) (d : DomainObject) (k : String)
    (h : (p.localIndexedDomainObjects.map Prod.fst).contains k = true) :
    ((index env p d).localIndexedDomainObjects.map Prod.fst).contains k = true := by
  unfold index
  dsimp only
  repeat' split
  all_goals try rw [foldl_scheduleForIndexing_domainObjects]
  all_goals first
    | exact h
    | (apply localIndexItem_keys_contains; exact h)

/-- C9: the composition-mutation diff contains exactly the identifiers of
the new child list for which no member of the last-known list is
identifier-equal (value equality on `{namespace, key}`, not reference
equality) — so identifiers already present are not re-fetched or re-indexed
— and `onCompositionMutation` never prunes an existing key from the primary
index, whatever the fetches return. -/
theorem onCompositionMutation_exact_diff :
    ∀ (env : Env) (fetch : Identifier → Option DomainObject) (p : Provider)
      (indexedComposition newComposition : List Identifier),
      (∀ identifier, identifier ∈ compositionDiff indexedComposition newComposition ↔
        (identifier ∈ newComposition ∧ ∀ o ∈ indexedComposition, o ≠ identifier)) ∧
      (∀ k, (p.localIndexedDomainObjects.map Prod.fst).contains k = true →
        (((onCompositionMutation env fetch p indexedComposition
            newComposition).localIndexedDomainObjects).map Prod.fst).contains k =
          true) := by
  intro env fetch p old new
  constructor
  · intro identifier
    unfold compositionDiff
    simp [areIdsEqual]
  · intro k h
    unfold onCompositionMutation
    refine foldl_preserves
      (fun q : Provider => (q.localIndexedDomainObjects.map Prod.fst).contains k = true)
      _ ?_ (compositionDiff old new) p h
    intro b a hb
    cases hf : fetch a with
    | none => simpa [hf] using hb
    | some obj =>
      have := index_keys_contains env b obj k hb
      simpa [hf] using this

theorem onCompositionMutation_exact_diff_witness :
    ((⟨"", "b"⟩ : Identifier) ∈
        compositionDiff [⟨"", "a"⟩] [⟨"", "a"⟩, ⟨"", "b"⟩]) ∧
    (((onCompositionMutation envNoNative (fun _ => none) provXa
          [⟨"", "a"⟩] [⟨"", "a"⟩, ⟨"", "b"⟩]).localIndexedDomainObjects).map
        Prod.fst).contains "k1" = true :=
  ⟨((onCompositionMutation_exact_diff envNoNative (fun _ => none) provXa
      [⟨"", "a"⟩] [⟨"", "a"⟩, ⟨"", "b"⟩]).1 ⟨"", "b"⟩).mpr
      ⟨by decide, by decide⟩,
   (onCompositionMutation_exact_diff envNoNative (fun _ => none) provXa
      [⟨"", "a"⟩] [⟨"", "a"⟩, ⟨"", "b"⟩]).2 "k1" (by decide)⟩
